import Mathlib

/-! # Verification of the Notes-Generator content-to-document pipeline

Shallow embedding of `src/cmq.py`: the structural extractor
(`extract_text_with_structure`), the prompt composer
(`generate_targeted_study_material`), and the document renderer
(`create_professional_pdf` with its `NumberedCanvas` and
`convert_markdown_to_html` helpers).  Strings are modelled as Lean
`String` or `List Char`; Python truthiness of a string is `s ≠ ""` and of
a list is `l ≠ []`.
-/

namespace NotesGen

/-! ## String utilities mirroring Python primitives -/

/-- The characters Python `str.strip()` removes. -/
def isPySpace (c : Char) : Bool :=
  c == ' ' || c == '\t' || c == '\n' || c == '\r' || c == '\x0b' || c == '\x0c'

/-- Python `str.strip()` on a character list. -/
def pyStripList (l : List Char) : List Char :=
  ((l.dropWhile isPySpace).reverse.dropWhile isPySpace).reverse

/-- Python `str.strip()`. -/
def pyStrip (s : String) : String :=
  String.mk (pyStripList s.data)

/-- Python `str.startswith` on character lists (second argument is the pattern). -/
def startsWithList : List Char → List Char → Bool
  | _, [] => true
  | [], _ :: _ => false
  | c :: cs, d :: ds => c == d && startsWithList cs ds

/-- Python `pattern in s` substring test on character lists. -/
def containsSub : List Char → List Char → Bool
  | [], pat => pat.isEmpty
  | c :: cs, pat => startsWithList (c :: cs) pat || containsSub cs pat

/-- Substring test on strings, via their character lists. -/
def strContainsB (s pat : String) : Bool :=
  containsSub s.data pat.data

/-! ## Material-type catalog (`MATERIAL_TYPES` in the source) -/

structure MaterialSpec where
  name : String
  description : String
  prompt_modifier : String
deriving DecidableEq, Repr

def comprehensiveSpec : MaterialSpec :=
  ⟨"Comprehensive Study Notes",
   "Detailed explanations covering all aspects",
   "Create extremely detailed and comprehensive notes with thorough explanations, multiple examples, and deep conceptual understanding."⟩

def MATERIAL_TYPES : List (String × MaterialSpec) :=
  [("comprehensive", comprehensiveSpec),
   ("summarized",
    ⟨"Summarized Key Points",
     "Concise summary focusing on essential concepts",
     "Create a concise summary that captures only the most essential information and key takeaways. Be brief but complete."⟩),
   ("pointwise",
    ⟨"Point-wise Structure",
     "Bullet points for easy memorization",
     "Structure everything in clear bullet points and numbered lists. Make it easy to scan and memorize. Use short, impactful statements."⟩),
   ("prerequisite",
    ⟨"Prerequisite-Focused",
     "Emphasizes foundational concepts",
     "Focus heavily on prerequisite knowledge and foundational concepts. Build from basics to advanced. Include background information that students might be missing."⟩),
   ("problem_solving",
    ⟨"Problem-Solving Oriented",
     "Focus on practical applications and exercises",
     "Emphasize problem-solving techniques, worked examples, practice problems, and step-by-step solutions. Include common mistakes to avoid."⟩),
   ("visual_learning",
    ⟨"Visual Learning Guide",
     "Structured for visual learners with diagrams descriptions",
     "Structure content for visual learners. Describe concepts that would benefit from diagrams, flowcharts, and mind maps. Use analogies and visual metaphors."⟩),
   ("exam_focused",
    ⟨"Exam Preparation",
     "Tailored for test preparation",
     "Focus on exam-relevant content, important formulas, frequently asked questions, and exam tips. Highlight what\x27s most likely to appear in tests."⟩)]

/-- Python `MATERIAL_TYPES.get(key)` as an option. -/
def lookupMaterial (k : String) : Option MaterialSpec :=
  (MATERIAL_TYPES.find? (fun e => e.1 == k)).map (fun e => e.2)

/-- `MATERIAL_TYPES.get(material_type, MATERIAL_TYPES["comprehensive"])`. -/
def materialConfig (k : String) : MaterialSpec :=
  (lookupMaterial k).getD comprehensiveSpec

/-- The endpoint metadata lookup
`MATERIAL_TYPES.get(material_type, {}).get("name", "Study Notes")`. -/
def endpointMaterialName (k : String) : String :=
  match lookupMaterial k with
  | some c => c.name
  | none => "Study Notes"

/-! ## Structural extractor (`extract_text_with_structure`) -/

/-- A text-bearing element of a slide.  `has_text_frame` mirrors
`shape.has_text_frame`; `is_title` mirrors `shape == slide.shapes.title`;
`text` mirrors `shape.text`; `paragraphs` carries the paragraph texts of
`shape.text_frame.paragraphs`.  The Python `hasattr(shape, "text")` test is
always true for shapes that carry a text frame, so it is modelled as true. -/
structure Shape where
  has_text_frame : Bool
  is_title : Bool
  text : String
  paragraphs : List String
deriving DecidableEq, Repr

structure Slide where
  shapes : List Shape
deriving DecidableEq, Repr

structure SlideRec where
  slide_number : Nat
  title : String
  content : List String
deriving DecidableEq, Repr

structure DeckExtraction where
  total_slides : Nat
  slides : List SlideRec
  full_text : String
deriving DecidableEq, Repr

/-- One iteration of the per-shape loop in `extract_text_with_structure`. -/
def shapeStep (slideNum : Nat) (acc : SlideRec) (sh : Shape) : SlideRec :=
  if !sh.has_text_frame then acc
  else if sh.is_title || slideNum == 1 then { acc with title := sh.text }
  else { acc with content := acc.content ++
    sh.paragraphs.filterMap (fun p => if pyStrip p == "" then none else some (pyStrip p)) }

/-- The per-slide record built by the shape loop. -/
def extractSlide (slideNum : Nat) (sl : Slide) : SlideRec :=
  sl.shapes.foldl (shapeStep slideNum) ⟨slideNum, "", []⟩

/-- `enumerate(presentation.slides, 1)`. -/
def enumerate1 : Nat → List Slide → List (Nat × Slide)
  | _, [] => []
  | n, sl :: rest => (n, sl) :: enumerate1 (n + 1) rest

/-- The per-slide piece of `full_text`. -/
def slideLine (r : SlideRec) : String :=
  "Slide " ++ toString r.slide_number ++ ": " ++ r.title ++ "\n" ++
    String.intercalate "\n" r.content

/-- `extract_text_with_structure`, given the parsed deck. -/
def extract (slides : List Slide) : DeckExtraction :=
  let recs := (enumerate1 1 slides).map (fun p => extractSlide p.1 p.2)
  let retained := recs.filter (fun r => !(r.title == "") || !r.content.isEmpty)
  ⟨slides.length, retained, String.intercalate "\n" (retained.map slideLine)⟩

/-- Title candidate selection, written the way the amended claim states it:
walking the shapes, the LAST text-bearing shape satisfying the title
condition (designated title placeholder, or any text-bearing shape when the
slide number is 1) provides the title. -/
def lastTitle (n : Nat) : List Shape → Option String
  | [] => none
  | sh :: rest =>
    match lastTitle n rest with
    | some t => some t
    | none => if sh.has_text_frame && (sh.is_title || n == 1) then some sh.text else none

/-- Content contribution, written the way the amended claim states it: every
text-bearing shape that is NOT a title candidate contributes its non-blank
trimmed paragraph lines in encounter order. -/
def contentSpec (n : Nat) : List Shape → List String
  | [] => []
  | sh :: rest =>
    (if sh.has_text_frame && !(sh.is_title || n == 1) then
      sh.paragraphs.filterMap (fun p => if pyStrip p == "" then none else some (pyStrip p))
     else []) ++ contentSpec n rest

/-! ## Prompt composer (`generate_targeted_study_material`)

The prompt is a Python f-string; the pieces below transliterate its literal
text (including the 8-space indentation of every line and the blank lines)
and the interpolated expressions, in source order.  `weak_spots_text` is
interpolated twice: once as section 4 of the prompt and once inside the
length-restriction block. -/

/-- Literal head of the `weak_spots_text` f-string. -/
def wsPre : String :=
  "\n        CRITICAL STUDENT WEAK SPOTS:\n        The student particularly struggles with the following concepts:\n        "

/-- Literal tail of the `weak_spots_text` f-string: the 7 numbered directives. -/
def wsPost : String :=
  "\n        \n        IMPORTANT INSTRUCTIONS FOR WEAK SPOTS:\n        1. Provide EXTRA detailed explanations for these topics\n        2. Include multiple examples for each weak spot\n        3. Break down complex concepts into simpler steps\n        4. Explain prerequisites needed to understand these topics\n        5. Include common misconceptions and clarifications\n        6. Add practice questions specifically targeting these areas\n        7. Use analogies and real-world applications\n        "

/-- The comma-joined quoted list
`", ".join(["\"" + spot + "\"" for spot in weak_spots if spot.strip()])`.
Note the filter tests the trimmed entry but the quoted text is the original
untrimmed entry. -/
def weakSpotsJoined (ws : List String) : String :=
  String.intercalate ", " ((ws.filter (fun s => !(pyStrip s == ""))).map
    (fun s => "\"" ++ s ++ "\""))

/-- `weak_spots_text`: built only when `weak_spots and any(weak_spots)` is
truthy in Python, i.e. the list is non-empty and has a non-empty entry
(a whitespace-only entry counts). -/
def weakSpotsText (ws : List String) : String :=
  if !ws.isEmpty && ws.any (fun s => !(s == "")) then
    wsPre ++ weakSpotsJoined ws ++ wsPost
  else ""

/-- The fixed `difficulty_instructions` table consulted with `.get(level, "")`. -/
def difficultyInstr (d : String) : String :=
  if d == "beginner" then
    "Use simple language, avoid jargon, explain everything from basics."
  else if d == "intermediate" then
    "Balance between foundational concepts and advanced topics."
  else if d == "advanced" then
    "Include complex concepts, theoretical depth, and advanced applications."
  else ""

/-- Prompt sections 1 to 3: role framing, material type, difficulty. -/
def promptHead (cfg : MaterialSpec) (dl : String) : String :=
  "\n        You are an expert educational content creator. Generate high-quality study material based on the PowerPoint content provided.\n\n        MATERIAL TYPE: " ++ cfg.name ++ "\n        STYLE INSTRUCTION: " ++ cfg.prompt_modifier ++ "\n\n        DIFFICULTY LEVEL: " ++ dl ++ "\n        " ++ difficultyInstr dl ++ "\n\n        "

/-- Prompt sections 5 to 7: additional instructions, deck content, the fixed
8-item formatting list. -/
def promptMid (ai : String) (totalSlides : Nat) (fullText : String) : String :=
  "\n\n        ADDITIONAL TUTOR INSTRUCTIONS:\n        " ++ (if ai == "" then "None provided" else ai) ++ "\n\n        POWERPOINT CONTENT:\n        Total Slides: " ++ toString totalSlides ++ "\n        Content:\n        " ++ fullText ++ "\n\n        FORMATTING REQUIREMENTS:\n        1. Use clear hierarchical structure with headers\n        2. Include relevant examples and explanations\n        3. For weak spots, provide extra detail and clarity\n        4. Use formatting markers: **bold** for emphasis, *italic* for terms\n        5. Number important points and use bullet points for lists\n        6. Include a summary section at the end\n        7. Add \"Key Takeaways\" for each major topic\n        8. If relevant, include formulas, definitions, and important dates"

/-- Prompt section 8, the length-restriction block; its closing coverage
directive re-interpolates `weak_spots_text`. -/
def promptLenBlock (wst : String) : String :=
  "\n\n        OUTPUT LENGTH RESTRICTIONS:\n        - The response must fit within a maximum of 2 pages in a standard PDF (≈ 600–800 words total).\n        - Be concise and avoid unnecessary repetition.\n        - Prioritize clarity and weak spot coverage over breadth.\n        - Do not expand on all content; only cover " ++ wst ++ " as specified.\n\n        Remember: focus only on the weak spots, and compress explanations so the entire material fits within 2 PDF pages.\n        "

/-- The full composed prompt of `generate_targeted_study_material`. -/
def generatePrompt (ppt : DeckExtraction) (ws : List String)
    (materialType difficultyLevel additionalInstructions : String) : String :=
  promptHead (materialConfig materialType) difficultyLevel ++
    weakSpotsText ws ++
    promptMid additionalInstructions ppt.total_slides ppt.full_text ++
    promptLenBlock (weakSpotsText ws)

/-! ## NumberedCanvas (two-phase page numbering) -/

/-- The canvas state observed by `NumberedCanvas`: reportlab starts with
`_pageNumber = 1`; `showPage` saves the current state (we keep its
`_pageNumber`) and `_startPage` increments the counter. -/
structure CanvasSt where
  pageNumber : Nat
  saved : List Nat
deriving DecidableEq, Repr

def initCanvas : CanvasSt := ⟨1, []⟩

/-- `NumberedCanvas.showPage`. -/
def showPage (c : CanvasSt) : CanvasSt :=
  ⟨c.pageNumber + 1, c.saved ++ [c.pageNumber]⟩

def runShowPages : Nat → CanvasSt → CanvasSt
  | 0, c => c
  | n + 1, c => runShowPages n (showPage c)

/-- The text a page ends up carrying: the right-aligned footer drawn by
`draw_page_number` and the header line. -/
structure PageStamp where
  footer : String
  header : String
deriving DecidableEq, Repr

/-- `NumberedCanvas.draw_page_number` for one restored state. -/
def drawPageNumber (mtName : String) (pageNum total : Nat) : PageStamp :=
  ⟨"Page " ++ toString pageNum ++ " of " ++ toString total,
   "Study Material - " ++ mtName⟩

/-- `NumberedCanvas.save`: stamps every saved page state with the final
total page count. -/
def canvasSave (mtName : String) (c : CanvasSt) : List PageStamp :=
  c.saved.map (fun p => drawPageNumber mtName p c.saved.length)

/-! ## Renderer (`create_professional_pdf`)

`convert_markdown_to_html` first XML-escapes the text, then rewrites
`**text**` spans with `re.sub`, then rewrites `*text*` spans guarded by
negative lookbehind and lookahead.  The two substitution functions below
are leftmost-match scans, written with an explicit fuel argument equal to
the input length (each step consumes at least one character). -/

/-- `xml.sax.saxutils.escape` on one character. -/
def escapeChar (c : Char) : List Char :=
  if c == '&' then ['&', 'a', 'm', 'p', ';']
  else if c == '<' then ['&', 'l', 't', ';']
  else if c == '>' then ['&', 'g', 't', ';']
  else [c]

/-- `xml.sax.saxutils.escape`. -/
def escapeXml : List Char → List Char
  | [] => []
  | c :: rest => escapeChar c ++ escapeXml rest

/-- Split a list into its maximal leading run satisfying `p` and the rest. -/
def splitRun (p : Char → Bool) : List Char → List Char × List Char
  | [] => ([], [])
  | c :: cs =>
    if p c then
      let r := splitRun p cs
      (c :: r.1, r.2)
    else ([], c :: cs)

/-- One leftmost-match scan of `re.sub` with pattern `\*\*([^*]+)\*\*` and
replacement `<b>\1</b>`.  A match needs two stars, a non-empty run of
non-star characters, and two closing stars; after a replacement the scan
resumes past the match. -/
def boldSubF : Nat → List Char → List Char
  | 0, l => l
  | _ + 1, [] => []
  | fuel + 1, '*' :: '*' :: rest =>
    (match splitRun (fun c => !(c == '*')) rest with
     | ([], _) => '*' :: boldSubF fuel ('*' :: rest)
     | (run, '*' :: '*' :: rest2) =>
       '<' :: 'b' :: '>' :: (run ++ '<' :: '/' :: 'b' :: '>' :: boldSubF fuel rest2)
     | (run, '*' :: tail) => '*' :: '*' :: (run ++ '*' :: boldSubF fuel tail)
     | (run, _) => '*' :: '*' :: run)
  | fuel + 1, c :: rest => c :: boldSubF fuel rest

def boldSub (l : List Char) : List Char := boldSubF l.length l

/-- One leftmost-match scan of `re.sub` with pattern
`(?<!\*)\*([^*]+)\*(?!\*)` and replacement `<i>\1</i>`.  The boolean flag
records whether the previous character of the subject was a star (the
negative lookbehind). -/
def italSubF : Nat → Bool → List Char → List Char
  | 0, _, l => l
  | _ + 1, _, [] => []
  | fuel + 1, prevStar, '*' :: rest =>
    if prevStar then '*' :: italSubF fuel true rest
    else
      match splitRun (fun c => !(c == '*')) rest with
      | ([], _) => '*' :: italSubF fuel true rest
      | (run, '*' :: '*' :: rest2) => '*' :: (run ++ italSubF fuel true ('*' :: '*' :: rest2))
      | (run, '*' :: tail) =>
        '<' :: 'i' :: '>' :: (run ++ '<' :: '/' :: 'i' :: '>' :: italSubF fuel true tail)
      | (run, _) => '*' :: run
  | fuel + 1, _, c :: rest => c :: italSubF fuel false rest

def italSub (l : List Char) : List Char := italSubF l.length false l

/-- `convert_markdown_to_html`: escape, then bold, then italic. -/
def convertMd (l : List Char) : List Char := italSub (boldSub (escapeXml l))

/-- The classification a stripped line receives in the renderer loop. -/
inductive LineClass
  | blank
  | subHeader
  | sectionHeader
  | titleHeader
  | keyPoint
  | bulletItem
  | numberedItem
  | paragraph
deriving DecidableEq, Repr

def lowerList (l : List Char) : List Char := l.map Char.toLower

/-- `line.startswith("*") and len(line) > 1 and line[1] == " "`. -/
def isStarBullet (l : List Char) : Bool :=
  match l with
  | '*' :: ' ' :: _ => true
  | _ => false

/-- `len(line) > 2 and line[0].isdigit() and (line[1] == "." or (len(line) > 3 and line[1:3] == ". "))`. -/
def isNumbered (l : List Char) : Bool :=
  decide (l.length > 2) && (l.getD 0 ' ').isDigit &&
    ((l.getD 1 ' ') == '.' ||
      (decide (l.length > 3) && (l.getD 1 ' ') == '.' && (l.getD 2 ' ') == ' '))

/-- The branch order of the renderer loop on an already-stripped line. -/
def classify (l : List Char) : LineClass :=
  if l.isEmpty then .blank
  else if startsWithList l ['#', '#', '#'] then .subHeader
  else if startsWithList l ['#', '#'] then .sectionHeader
  else if startsWithList l ['#'] then .titleHeader
  else if containsSub (lowerList l) "key takeaway".data ||
          containsSub (lowerList l) "important:".data then .keyPoint
  else if startsWithList l ['•'] || startsWithList l ['-'] || startsWithList l ['→'] ||
          isStarBullet l then .bulletItem
  else if isNumbered l then .numberedItem
  else .paragraph

/-- A flowable appended to the story, tagged by the paragraph style used. -/
inductive FBlock
  | titleB (s : List Char)
  | metaB (s : List Char)
  | secB (s : List Char)
  | subB (s : List Char)
  | keyB (s : List Char)
  | bulletB (s : List Char)
  | numB (s : List Char)
  | paraB (s : List Char)
  | spacerB
deriving DecidableEq, Repr

/-- `line.replace("#", "")` then `strip` then markdown conversion, used by
all three header branches. -/
def headerText (l : List Char) : List Char :=
  convertMd (pyStripList (l.filter (fun c => !(c == '#'))))

/-- The block built for one non-blank stripped line.  `pfails` models
whether constructing a reportlab `Paragraph` from the given markup raises
(the normal-text branch wraps that construction in try/except and retries
with the markup characters removed and the raw line XML-escaped). -/
def lineBlock (pfails : List Char → Bool) (l : List Char) : FBlock :=
  match classify l with
  | .subHeader => .subB (headerText l)
  | .sectionHeader => .secB (headerText l)
  | .titleHeader => .titleB (headerText l)
  | .keyPoint => .keyB (convertMd l)
  | .bulletItem =>
    .bulletB ('•' :: ' ' ::
      convertMd (pyStripList (if isStarBullet l then l.drop 2 else l.drop 1)))
  | .numberedItem => .numB (convertMd l)
  | _ =>
    if pfails (convertMd l) then
      .paraB (escapeXml ((l.filter (fun c => !(c == '*'))).filter (fun c => !(c == '#'))))
    else .paraB (convertMd l)

/-- The `in_list` flag after a non-blank line. -/
def newInList (l : List Char) (inList : Bool) : Bool :=
  match classify l with
  | .bulletItem => true
  | .numberedItem => true
  | _ => inList

/-- `content.split("\n")`. -/
def splitNLAux (acc : List Char) : List Char → List (List Char)
  | [] => [acc.reverse]
  | '\n' :: rest => acc.reverse :: splitNLAux [] rest
  | c :: rest => splitNLAux (c :: acc) rest

def splitNL (l : List Char) : List (List Char) := splitNLAux [] l

/-- `content.split("\n\n")` (leftmost, non-overlapping). -/
def splitOn2NLAux (acc : List Char) : List Char → List (List Char)
  | [] => [acc.reverse]
  | '\n' :: '\n' :: rest => acc.reverse :: splitOn2NLAux [] rest
  | c :: rest => splitOn2NLAux (c :: acc) rest

def splitOn2NL (l : List Char) : List (List Char) := splitOn2NLAux [] l

/-- The line loop of the structured rendering pass. -/
def processLines (pfails : List Char → Bool) : List (List Char) → Bool → List FBlock
  | [], _ => []
  | l :: rest, inList =>
    let s := pyStripList l
    if s.isEmpty then
      (if inList then [FBlock.spacerB] else []) ++ processLines pfails rest false
    else
      lineBlock pfails s :: processLines pfails rest (newInList s inList)

/-- The metadata paragraph text (date, material-type display name, first 3
weak spots). -/
def metaText (date mtName : String) (ws : List String) : String :=
  "Generated on " ++ date ++ "<br/>" ++ "Material Type: " ++ mtName ++ "<br/>" ++
    (if ws.isEmpty then "" else "Focus Areas: " ++ String.intercalate ", " (ws.take 3))

/-- The story built by the structured pass: title, metadata, spacer, then
the classified blocks. -/
def structuredStory (pfails : List Char → Bool) (date mtName : String)
    (ws : List String) (content : List Char) : List FBlock :=
  FBlock.titleB "Personalized Study Material".data ::
    FBlock.metaB (metaText date mtName ws).data ::
    FBlock.spacerB ::
    processLines pfails (splitNL content) false

/-- A character that is neither a markdown star nor a header hash. -/
def notMd (c : Char) : Bool := !(c == '*' || c == '#')

/-- The paragraph texts of the fallback pass: `re.sub(r"[*#]", "", content)`,
split on blank-line separators, blank chunks dropped, each remaining chunk
stripped and XML-escaped. -/
def fallbackParas (content : List Char) : List (List Char) :=
  (splitOn2NL (content.filter notMd)).filterMap
    (fun p => if (pyStripList p).isEmpty then none else some (escapeXml (pyStripList p)))

/-- The story built by the fallback pass: the title block, then one
paragraph (followed by a spacer) per retained chunk. -/
def fallbackStory (content : List Char) : List FBlock :=
  FBlock.titleB "Personalized Study Material".data ::
    (fallbackParas content).foldr (fun p acc => FBlock.paraB p :: FBlock.spacerB :: acc) []

/-- `create_professional_pdf` as the story it lays out: `layoutFails` models
whether `doc.build(story, canvasmaker=NumberedCanvas)` raises, in which case
all accumulated blocks are discarded and the fallback story is built. -/
def createPdfStory (layoutFails : Bool) (pfails : List Char → Bool)
    (date mtName : String) (ws : List String) (content : List Char) : List FBlock :=
  if layoutFails then fallbackStory content
  else structuredStory pfails date mtName ws content

end NotesGen

namespace NotesGen

/-! ## Helper lemmas -/

theorem startsWithList_append {l p : List Char} (extra : List Char)
    (h : startsWithList l p = true) : startsWithList (l ++ extra) p = true := by
  induction p generalizing l with
  | nil => simp [startsWithList]
  | cons d ds ih =>
    cases l with
    | nil => simp [startsWithList] at h
    | cons c cs =>
      simp only [startsWithList, Bool.and_eq_true, beq_iff_eq] at h
      simp only [List.cons_append, startsWithList, Bool.and_eq_true, beq_iff_eq]
      exact ⟨h.1, ih h.2⟩

theorem containsSub_nil_pat : ∀ l : List Char, containsSub l [] = true
  | [] => rfl
  | _ :: cs => by simp [containsSub, startsWithList]

theorem containsSub_append_left {a p : List Char} (b : List Char)
    (h : containsSub a p = true) : containsSub (a ++ b) p = true := by
  induction a with
  | nil =>
    simp only [containsSub, List.isEmpty_iff] at h
    subst h
    simpa using containsSub_nil_pat b
  | cons c cs ih =>
    simp only [containsSub, Bool.or_eq_true] at h
    rcases h with h | h
    · have := startsWithList_append (l := c :: cs) b h
      simp only [List.cons_append, containsSub, Bool.or_eq_true]
      left
      simpa using this
    · simp only [List.cons_append, containsSub, Bool.or_eq_true]
      right
      exact ih h

theorem containsSub_append_right {b p : List Char} (a : List Char)
    (h : containsSub b p = true) : containsSub (a ++ b) p = true := by
  induction a with
  | nil => simpa using h
  | cons c cs ih =>
    simp only [List.cons_append, containsSub, Bool.or_eq_true]
    right
    simpa using ih

theorem strData_append (s t : String) : (s ++ t).data = s.data ++ t.data := rfl

theorem strContainsB_append_left {a p : String} (b : String)
    (h : strContainsB a p = true) : strContainsB (a ++ b) p = true := by
  unfold strContainsB at *
  rw [strData_append]
  exact containsSub_append_left _ h

theorem strContainsB_append_right {b p : String} (a : String)
    (h : strContainsB b p = true) : strContainsB (a ++ b) p = true := by
  unfold strContainsB at *
  rw [strData_append]
  exact containsSub_append_right _ h

/-- The shape fold is characterised by `lastTitle` and `contentSpec`. -/
theorem foldl_shapeStep_eq (n : Nat) (shapes : List Shape) :
    ∀ acc : SlideRec,
      shapes.foldl (shapeStep n) acc =
        ⟨acc.slide_number, (lastTitle n shapes).getD acc.title,
         acc.content ++ contentSpec n shapes⟩ := by
  induction shapes with
  | nil => intro acc; simp [lastTitle, contentSpec]
  | cons sh rest ih =>
    intro acc
    by_cases htf : sh.has_text_frame = true
    · by_cases hcond : (sh.is_title || n == 1) = true
      · have hstep : shapeStep n acc sh = { acc with title := sh.text } := by
          simp [shapeStep, htf, hcond]
        rw [List.foldl_cons, hstep, ih]
        cases hrest : lastTitle n rest with
        | some t => simp [lastTitle, hrest, contentSpec, htf, hcond]
        | none => simp [lastTitle, hrest, contentSpec, htf, hcond]
      · have hstep : shapeStep n acc sh = { acc with content := acc.content ++ (sh.paragraphs.filterMap (fun p => if pyStrip p == "" then none else some (pyStrip p))) } := by
          simp [shapeStep, htf, hcond]
        rw [List.foldl_cons, hstep, ih]
        cases hrest : lastTitle n rest with
        | some t => simp [lastTitle, hrest, contentSpec, htf, hcond]
        | none => simp [lastTitle, hrest, contentSpec, htf, hcond]
    · have hstep : shapeStep n acc sh = acc := by
        simp [shapeStep, htf]
      rw [List.foldl_cons, hstep, ih]
      cases hrest : lastTitle n rest with
      | some t => simp [lastTitle, hrest, contentSpec, htf]
      | none => simp [lastTitle, hrest, contentSpec, htf]

theorem enumerate1_length : ∀ (n : Nat) (l : List Slide), (enumerate1 n l).length = l.length
  | _, [] => rfl
  | n, _ :: rest => by simp [enumerate1, enumerate1_length (n + 1) rest]

theorem enumerate1_mem_snd {n : Nat} {l : List Slide} {p : Nat × Slide}
    (h : p ∈ enumerate1 n l) : p.2 ∈ l := by
  induction l generalizing n with
  | nil => simp [enumerate1] at h
  | cons sl rest ih =>
    simp only [enumerate1, List.mem_cons] at h
    rcases h with h | h
    · subst h; simp
    · simp [ih h]

theorem lastTitle_blank {n : Nat} {shapes : List Shape}
    (h : ∀ sh ∈ shapes, sh.has_text_frame = true → sh.text = "") :
    (lastTitle n shapes).getD "" = "" := by
  induction shapes with
  | nil => rfl
  | cons sh rest ih =>
    have hrest := ih (fun x hx => h x (List.mem_cons_of_mem sh hx))
    cases hr : lastTitle n rest with
    | some t =>
      rw [hr] at hrest
      simp [lastTitle, hr, hrest]
    | none =>
      by_cases hc : (sh.has_text_frame && (sh.is_title || n == 1)) = true
      · have htf : sh.has_text_frame = true := (Bool.and_eq_true _ _ |>.mp hc).1
        simp [lastTitle, hr, hc, h sh (List.mem_cons_self sh rest) htf]
      · simp [lastTitle, hr, hc]

theorem contentSpec_blank {n : Nat} {shapes : List Shape}
    (h : ∀ sh ∈ shapes, sh.has_text_frame = true → ∀ p ∈ sh.paragraphs, pyStrip p = "") :
    contentSpec n shapes = [] := by
  induction shapes with
  | nil => rfl
  | cons sh rest ih =>
    have hrest := ih (fun x hx => h x (List.mem_cons_of_mem sh hx))
    unfold contentSpec
    rw [hrest]
    split
    · rename_i hc
      have htf : sh.has_text_frame = true := (Bool.and_eq_true _ _ |>.mp hc).1
      have hhead : sh.paragraphs.filterMap
          (fun p => if pyStrip p == "" then none else some (pyStrip p)) = [] := by
        rw [List.filterMap_eq_nil_iff]
        intro p hp
        simp [h sh (List.mem_cons_self sh rest) htf p hp]
      rw [hhead]
      simp
    · simp

theorem weakSpotsText_eq_of_any {ws : List String}
    (h : ws.any (fun s => !(s == "")) = true) :
    weakSpotsText ws = wsPre ++ weakSpotsJoined ws ++ wsPost := by
  have hne : ws.isEmpty = false := by
    cases ws with
    | nil => simp [List.any_nil] at h
    | cons a t => rfl
  simp [weakSpotsText, hne, h]

theorem weakSpotsText_ne_of_any {ws : List String}
    (h : ws.any (fun s => !(s == "")) = true) : weakSpotsText ws ≠ "" := by
  rw [weakSpotsText_eq_of_any h]
  intro heq
  have hdata := congrArg String.data heq
  rw [strData_append, strData_append] at hdata
  have h2 := List.append_eq_nil.mp hdata
  exact absurd h2.2 (by decide)

theorem prompt_contains_marker (ppt : DeckExtraction) (ws : List String)
    (mt dl ai : String) (h : ws.any (fun s => !(s == "")) = true) :
    strContainsB (generatePrompt ppt ws mt dl ai) "CRITICAL STUDENT WEAK SPOTS" = true := by
  unfold generatePrompt
  apply strContainsB_append_left
  apply strContainsB_append_left
  apply strContainsB_append_right
  rw [weakSpotsText_eq_of_any h]
  apply strContainsB_append_left
  apply strContainsB_append_left
  decide

theorem all_notMd_filter (l : List Char) : (l.filter notMd).all notMd = true := by
  rw [List.all_eq_true]
  intro c hc
  exact (List.mem_filter.mp hc).2

theorem splitOn2NLAux_all (P : Char → Bool) :
    ∀ (acc l : List Char), acc.all P = true → l.all P = true →
      ∀ p ∈ splitOn2NLAux acc l, p.all P = true := by
  intro acc l
  induction acc, l using splitOn2NLAux.induct with
  | case1 acc =>
    intro ha _ p hp
    simp [splitOn2NLAux] at hp
    subst hp
    simpa using ha
  | case2 acc rest ih =>
    intro ha hl p hp
    simp only [splitOn2NLAux, List.mem_cons] at hp
    rcases hp with rfl | hp
    · simpa using ha
    · simp only [List.all_cons, Bool.and_eq_true] at hl
      exact ih rfl hl.2.2 p hp
  | case3 acc c rest hne ih =>
    intro ha hl p hp
    simp only [List.all_cons, Bool.and_eq_true] at hl
    rw [splitOn2NLAux.eq_3 acc c rest hne] at hp
    refine ih ?_ hl.2 p hp
    simp [List.all_cons, hl.1, ha]

theorem pyStripList_all {P : Char → Bool} {l : List Char}
    (h : l.all P = true) : (pyStripList l).all P = true := by
  rw [List.all_eq_true] at h ⊢
  intro c hc
  unfold pyStripList at hc
  rw [List.mem_reverse] at hc
  have hc2 := (List.dropWhile_sublist isPySpace).mem hc
  rw [List.mem_reverse] at hc2
  exact h c ((List.dropWhile_sublist isPySpace).mem hc2)

theorem escapeXml_all_notMd {l : List Char} (h : l.all notMd = true) :
    (escapeXml l).all notMd = true := by
  induction l with
  | nil => rfl
  | cons c rest ih =>
    simp only [List.all_cons, Bool.and_eq_true] at h
    have hrest := ih h.2
    unfold escapeXml
    rw [List.all_append]
    refine Bool.and_eq_true _ _ |>.mpr ⟨?_, hrest⟩
    by_cases h1 : c = '&'
    · subst h1; decide
    · by_cases h2 : c = '<'
      · subst h2; decide
      · by_cases h3 : c = '>'
        · subst h3; decide
        · simp [escapeChar, h1, h2, h3, h.1]

theorem fallbackParas_all_notMd (content : List Char) :
    ∀ p ∈ fallbackParas content, p.all notMd = true := by
  intro p hp
  unfold fallbackParas at hp
  obtain ⟨a, ha, hfa⟩ := List.mem_filterMap.mp hp
  have hchunk : a.all notMd = true := by
    refine splitOn2NLAux_all notMd [] (content.filter notMd) rfl ?_ a ha
    exact all_notMd_filter content
  by_cases hs : (pyStripList a).isEmpty = true
  · simp [hs] at hfa
  · simp only [hs] at hfa
    simp only [Bool.false_eq_true, if_false, Option.some.injEq] at hfa
    subst hfa
    exact escapeXml_all_notMd (pyStripList_all hchunk)

theorem runShowPages_spec : ∀ (n k : Nat) (s : List Nat),
    runShowPages n ⟨k, s⟩ = ⟨k + n, s ++ List.range' k n⟩ := by
  intro n
  induction n with
  | zero => intro k s; simp [runShowPages]
  | succ m ih =>
    intro k s
    show runShowPages m (showPage ⟨k, s⟩) = _
    rw [show showPage ⟨k, s⟩ = ⟨k + 1, s ++ [k]⟩ from rfl, ih]
    rw [List.range'_succ]
    refine congrArg₂ CanvasSt.mk (by omega) ?_
    rw [List.append_cons]
    simp

theorem isStarBullet_eq_false_of_head {c0 : Char} (c1 : Char) (t : List Char)
    (h : ¬ c0 = '*') : isStarBullet (c0 :: c1 :: t) = false := by
  unfold isStarBullet
  split
  · rename_i heq
    injection heq with h1 h2
    exact absurd h1 h
  · rfl

theorem char_isDigit_ne {c d : Char} (hc : c.isDigit = true) (hd : d.isDigit = false) :
    c ≠ d := by
  intro heq
  rw [heq] at hc
  rw [hc] at hd
  exact Bool.noConfusion hd

/-! ## Claims -/

set_option maxRecDepth 16384 in
/-- C1, counterexample.  The claim says the weak-spots block appears in the
composed prompt if and only if `weak_spots` has an entry that is non-blank
after trimming, and that the block lists every TRIMMED entry in quotes.
Both parts fail on the code: a whitespace-only entry is truthy in Python, so
`weak_spots = [" "]` emits the block although no entry is non-blank after
trimming; and the quoted entries are the original untrimmed strings, so for
`[" A "]` the block quotes " A ", not the trimmed "A". -/
theorem c1_counterexample :
    pyStrip " " = "" ∧
    weakSpotsText [" "] ≠ "" ∧
    containsSub (weakSpotsText [" A "]).data ('"' :: 'A' :: '"' :: []) = false ∧
    containsSub (weakSpotsText [" A "]).data ('"' :: ' ' :: 'A' :: ' ' :: '"' :: []) = true := by
  refine ⟨by decide, ?_, by decide, by decide⟩
  exact weakSpotsText_ne_of_any (by decide)

/-- C1, amended.  The weak-spots emphasis block is emitted iff `weak_spots`
contains at least one non-EMPTY entry (a whitespace-only entry counts).
When it is emitted, it consists of the fixed heading, then every entry that
is non-blank after trimming, in order, each wrapped in double quotes in its
ORIGINAL untrimmed form, comma-joined, then the fixed 7 numbered directives
(`wsPost`); and the composed prompt contains the block. -/
theorem c1_amended (ppt : DeckExtraction) (ws : List String) (mt dl ai : String) :
    (weakSpotsText ws = "" ↔ ws.any (fun s => !(s == "")) = false) ∧
    (ws.any (fun s => !(s == "")) = true →
      weakSpotsText ws = wsPre ++ String.intercalate ", "
          ((ws.filter (fun s => !(pyStrip s == ""))).map (fun s => "\"" ++ s ++ "\"")) ++ wsPost ∧
      strContainsB (generatePrompt ppt ws mt dl ai) "CRITICAL STUDENT WEAK SPOTS" = true) := by
  constructor
  · constructor
    · intro h
      cases hb : ws.any (fun s => !(s == "")) with
      | false => rfl
      | true => exact absurd h (weakSpotsText_ne_of_any hb)
    · intro h
      simp [weakSpotsText, h]
  · intro h
    exact ⟨weakSpotsText_eq_of_any h, prompt_contains_marker ppt ws mt dl ai h⟩

/-- C1, witness for the amended theorem at a concrete request. -/
theorem c1_amended_witness :
    weakSpotsText ["Recursion"] = wsPre ++ String.intercalate ", "
        ((["Recursion"].filter (fun s => !(pyStrip s == ""))).map (fun s => "\"" ++ s ++ "\"")) ++ wsPost ∧
    strContainsB (generatePrompt ⟨1, [], ""⟩ ["Recursion"] "pointwise" "beginner" "")
      "CRITICAL STUDENT WEAK SPOTS" = true :=
  (c1_amended ⟨1, [], ""⟩ ["Recursion"] "pointwise" "beginner" "").2 (by decide)

/-- C2, counterexample.  The claim says only the FIRST text-bearing element
of slide 1 (or a designated title placeholder) becomes the title and that
every other text-bearing element contributes its paragraph lines to the
content.  On slide 1 the code treats EVERY text-bearing shape as a title
candidate (`slide_num == 1` is checked, not "first"): with two plain text
shapes "Alpha" then "Beta" on slide 1, the title ends up "Beta" and the
content stays empty, while the claim predicts title "Alpha" and content
["Beta"]. -/
theorem c2_counterexample :
    (extract [⟨[⟨true, false, "Alpha", ["Alpha"]⟩, ⟨true, false, "Beta", ["Beta"]⟩]⟩]).slides =
      [⟨1, "Beta", []⟩] ∧
    (extract [⟨[⟨true, false, "Alpha", ["Alpha"]⟩, ⟨true, false, "Beta", ["Beta"]⟩]⟩]).slides ≠
      [⟨1, "Alpha", ["Beta"]⟩] := by
  constructor
  · decide
  · decide

/-- C2, amended.  For every slide, walking the shapes in order: every
text-bearing shape that is a designated title placeholder, or ANY
text-bearing shape when the slide number is 1, is a title candidate; the
LAST candidate provides the title (empty if none) and candidates contribute
nothing to the content; every other text-bearing shape contributes its
non-blank trimmed paragraph lines in encounter order (`contentSpec`). -/
theorem c2_amended (n : Nat) (sl : Slide) :
    extractSlide n sl = ⟨n, (lastTitle n sl.shapes).getD "", contentSpec n sl.shapes⟩ := by
  unfold extractSlide
  rw [foldl_shapeStep_eq]
  simp

/-- C3, counterexample.  The claim says a prefix of one or more ASCII digits
followed by a period and a space classifies as NumberedItem.  The code only
tests `line[0].isdigit() and line[1] == "."`, so the two-digit line
"12. Do the thing" (digit at index 1, not a period) falls through and
classifies as a Paragraph. -/
theorem c3_counterexample :
    startsWithList "12. Do the thing".data "12. ".data = true ∧
    classify "12. Do the thing".data = LineClass.paragraph ∧
    LineClass.paragraph ≠ LineClass.numberedItem := by
  refine ⟨by decide, by decide, by decide⟩

/-- C3, amended.  A line of length at least 3 whose FIRST character is an
ASCII digit and whose SECOND character is a period classifies as
NumberedItem (no space is required after the period, and multi-digit
prefixes are not recognized), provided it does not contain the key-point
markers; the full original line is kept after markup translation.
"* floating note" classifies as BulletItem, and "*emphasis*" classifies as
Paragraph with italic markup applied, not as a bullet. -/
theorem c3_amended (pfails : List Char → Bool) :
    (∀ l : List Char, l.length > 2 → (l.getD 0 ' ').isDigit = true →
      l.getD 1 ' ' = '.' →
      containsSub (lowerList l) "key takeaway".data = false →
      containsSub (lowerList l) "important:".data = false →
      classify l = LineClass.numberedItem ∧
        lineBlock pfails l = FBlock.numB (convertMd l)) ∧
    classify "* floating note".data = LineClass.bulletItem ∧
    classify "*emphasis*".data = LineClass.paragraph ∧
    lineBlock (fun _ => false) "*emphasis*".data = FBlock.paraB "<i>emphasis</i>".data := by
  refine ⟨?_, by decide, by decide, by decide⟩
  intro l hlen hd hdot hk hi
  match l, hlen with
  | c0 :: c1 :: c2 :: t, _ =>
    simp only [List.getD_cons_zero] at hd
    simp only [List.getD_cons_succ, List.getD_cons_zero] at hdot
    subst hdot
    have hne : ∀ d : Char, d.isDigit = false → ¬ c0 = d := fun d hdig =>
      char_isDigit_ne hd hdig
    have h0 : (c0 == '#') = false := beq_eq_false_iff_ne.mpr (hne '#' (by decide))
    have hne1 : (c0 == '•') = false := beq_eq_false_iff_ne.mpr (hne '•' (by decide))
    have hne2 : (c0 == '-') = false := beq_eq_false_iff_ne.mpr (hne '-' (by decide))
    have hne3 : (c0 == '→') = false := beq_eq_false_iff_ne.mpr (hne '→' (by decide))
    have hsb : isStarBullet (c0 :: '.' :: c2 :: t) = false :=
      isStarBullet_eq_false_of_head '.' (c2 :: t) (hne '*' (by decide))
    have hnum : isNumbered (c0 :: '.' :: c2 :: t) = true := by
      unfold isNumbered
      simp only [List.getD_cons_zero, List.getD_cons_succ]
      simp [hd, List.length_cons]
    have hcls : classify (c0 :: '.' :: c2 :: t) = LineClass.numberedItem := by
      unfold classify
      simp only [List.isEmpty_cons, startsWithList, h0, hne1, hne2, hne3, hsb, hnum, hk, hi,
        Bool.false_and, Bool.false_or, Bool.or_self, Bool.or_false, if_false, if_true,
        Bool.false_eq_true]
    refine ⟨hcls, ?_⟩
    unfold lineBlock
    rw [hcls]

/-- C3, witness for the amended theorem at a concrete single-digit numbered
line. -/
theorem c3_amended_witness :
    classify "1. Do the thing".data = LineClass.numberedItem ∧
    lineBlock (fun _ => false) "1. Do the thing".data =
      FBlock.numB (convertMd "1. Do the thing".data) :=
  (c3_amended (fun _ => false)).1 "1. Do the thing".data (by decide) (by decide)
    (by decide) (by decide) (by decide)

set_option maxRecDepth 16384 in
/-- C4.  With an empty weak-spots list the composed prompt omits the
weak-spots emphasis block (`weak_spots_text` is the empty string), yet the
fixed length-restriction block is still present, including the closing
coverage directive, whose topic slot is filled with the empty
`weak_spots_text` (hence the double space in "only cover  as specified."). -/
theorem c4_empty_weak_spots (ppt : DeckExtraction) (mt dl ai : String) :
    weakSpotsText [] = "" ∧
    strContainsB (generatePrompt ppt [] mt dl ai) "OUTPUT LENGTH RESTRICTIONS:" = true ∧
    strContainsB (generatePrompt ppt [] mt dl ai) "only cover  as specified." = true ∧
    strContainsB (generatePrompt ppt [] mt dl ai)
      "Remember: focus only on the weak spots" = true := by
  refine ⟨rfl, ?_, ?_, ?_⟩ <;>
  · unfold generatePrompt
    apply strContainsB_append_right
    decide

/-- C5.  `total_slides` counts every slide of the source, so it bounds the
number of retained slides; every retained slide record has a non-empty title
or non-empty content; and a deck in which every text-bearing shape has empty
text and only blank paragraph lines yields no retained slides and an empty
`full_text`. -/
theorem c5_extraction_invariants (slides : List Slide) :
    (extract slides).total_slides = slides.length ∧
    (extract slides).slides.length ≤ (extract slides).total_slides ∧
    (∀ r ∈ (extract slides).slides, r.title ≠ "" ∨ r.content ≠ []) ∧
    ((∀ sl ∈ slides, ∀ sh ∈ sl.shapes, sh.has_text_frame = true →
        sh.text = "" ∧ ∀ p ∈ sh.paragraphs, pyStrip p = "") →
      (extract slides).slides = [] ∧ (extract slides).full_text = "") := by
  refine ⟨rfl, ?_, ?_, ?_⟩
  · show (List.filter _ _).length ≤ slides.length
    calc (List.filter _ ((enumerate1 1 slides).map (fun p => extractSlide p.1 p.2))).length
        ≤ ((enumerate1 1 slides).map (fun p => extractSlide p.1 p.2)).length :=
          List.length_filter_le _ _
      _ = (enumerate1 1 slides).length := List.length_map _ _
      _ = slides.length := enumerate1_length 1 slides
  · intro r hr
    have hpred := (List.mem_filter.mp hr).2
    simpa using hpred
  · intro hblank
    have hfilter : List.filter (fun r => !(r.title == "") || !r.content.isEmpty)
        ((enumerate1 1 slides).map (fun p => extractSlide p.1 p.2)) = [] := by
      rw [List.filter_eq_nil_iff]
      intro r hr
      obtain ⟨p, hp, rfl⟩ := List.mem_map.mp hr
      have hsl := enumerate1_mem_snd hp
      have htitle : (extractSlide p.1 p.2).title = "" := by
        rw [extractSlide, foldl_shapeStep_eq]
        exact lastTitle_blank (fun sh hsh htf => (hblank p.2 hsl sh hsh htf).1)
      have hcontent : (extractSlide p.1 p.2).content = [] := by
        rw [extractSlide, foldl_shapeStep_eq]
        show [] ++ contentSpec p.1 p.2.shapes = []
        rw [List.nil_append]
        exact contentSpec_blank (fun sh hsh htf q hq => (hblank p.2 hsl sh hsh htf).2 q hq)
      simp [htitle, hcontent]
    constructor
    · show List.filter _ _ = []
      exact hfilter
    · show String.intercalate "\n" ((List.filter _ _).map slideLine) = ""
      rw [hfilter]
      rfl

/-- C5, witness: a two-slide deck whose only text-bearing shape has empty
text and a whitespace-only paragraph yields no retained slides and an empty
full text. -/
theorem c5_extraction_invariants_witness :
    (extract [⟨[⟨true, false, "", ["  "]⟩]⟩, ⟨[]⟩]).slides = [] ∧
    (extract [⟨[⟨true, false, "", ["  "]⟩]⟩, ⟨[]⟩]).full_text = "" :=
  (c5_extraction_invariants [⟨[⟨true, false, "", ["  "]⟩]⟩, ⟨[]⟩]).2.2.2 (by decide)

/-- C6.  Inline markup translation escapes XML-significant characters first,
then rewrites double-star bold spans, then rewrites single-star italic spans
guarded against adjacent stars.  On "**bold** and *italic*" it produces one
bold and one italic span with no stray asterisk left, and "***x***" resolves
to a single italic-around-bold nesting. -/
theorem c6_markdown_translation :
    (∀ l : List Char, convertMd l = italSub (boldSub (escapeXml l))) ∧
    convertMd "**bold** and *italic*".data = "<b>bold</b> and <i>italic</i>".data ∧
    (convertMd "**bold** and *italic*".data).all (fun c => !(c == '*')) = true ∧
    convertMd "***x***".data = "<i><b>x</b></i>".data :=
  ⟨fun _ => rfl, by decide, by decide, by decide⟩

/-- C7.  When structured layout fails, the renderer discards every
accumulated block and produces the fallback story: the fixed title block
followed by one paragraph (with a spacer) per blank-line-separated chunk of
the markup-stripped input, and no paragraph of the fallback contains a hash
or a star character. -/
theorem c7_fallback (pfails : List Char → Bool) (date mtName : String)
    (ws : List String) (content : List Char) :
    createPdfStory true pfails date mtName ws content =
      FBlock.titleB "Personalized Study Material".data ::
        (fallbackParas content).foldr
          (fun p acc => FBlock.paraB p :: FBlock.spacerB :: acc) [] ∧
    (fallbackParas content).all (fun p => p.all notMd) = true := by
  constructor
  · rfl
  · rw [List.all_eq_true]
    intro p hp
    exact fallbackParas_all_notMd content p hp

/-- C8.  After `n` pages are shown, `NumberedCanvas.save` stamps every saved
page: page `i + 1` (for every `i < n`) carries the right-aligned footer
"Page (i+1) of n" — the total is the final page count, known only when
`save` runs after the full layout — and the header line naming the material
type. -/
theorem c8_page_numbering (n : Nat) (mtName : String) :
    (canvasSave mtName (runShowPages n initCanvas)).length = n ∧
    ∀ i, i < n → (canvasSave mtName (runShowPages n initCanvas)).getD i ⟨"", ""⟩ =
      ⟨"Page " ++ toString (i + 1) ++ " of " ++ toString n,
       "Study Material - " ++ mtName⟩ := by
  have hrun : runShowPages n initCanvas = ⟨1 + n, [] ++ List.range' 1 n⟩ :=
    runShowPages_spec n 1 []
  rw [List.nil_append] at hrun
  have hsaved : (runShowPages n initCanvas).saved = List.range' 1 n := by rw [hrun]
  constructor
  · unfold canvasSave
    rw [hsaved, List.length_map, List.length_range']
  · intro i hi
    unfold canvasSave
    rw [hsaved, List.length_range']
    rw [List.getD_eq_getElem?_getD, List.getElem?_map]
    rw [List.getElem?_range' 1 1 (by simpa using hi)]
    simp only [Option.map_some', Option.getD_some]
    unfold drawPageNumber
    rw [Nat.one_mul, Nat.add_comm 1 i]

/-- C8, witness: a two-page document has footer totals equal to 2 on both
pages, including page 1. -/
theorem c8_page_numbering_witness :
    (canvasSave "Exam Preparation" (runShowPages 2 initCanvas)).getD 0 ⟨"", ""⟩ =
      ⟨"Page " ++ toString (0 + 1) ++ " of " ++ toString 2,
       "Study Material - " ++ "Exam Preparation"⟩ ∧
    (canvasSave "Exam Preparation" (runShowPages 2 initCanvas)).getD 1 ⟨"", ""⟩ =
      ⟨"Page " ++ toString (1 + 1) ++ " of " ++ toString 2,
       "Study Material - " ++ "Exam Preparation"⟩ := by
  have h := c8_page_numbering 2 "Exam Preparation"
  exact ⟨h.2 0 (by decide), h.2 1 (by decide)⟩

/-- C9, counterexample.  The claim says every consultation of the catalog
falls back to the "comprehensive" entry for an unknown key, including the
document metadata.  The composer does fall back to the comprehensive entry,
but the endpoint metadata lookup uses `.get(material_type, {}).get("name",
"Study Notes")`, so the document metadata shows "Study Notes", not the
comprehensive display name. -/
theorem c9_counterexample :
    endpointMaterialName "mystery" = "Study Notes" ∧
    (materialConfig "mystery").name = "Comprehensive Study Notes" ∧
    ("Study Notes" : String) ≠ "Comprehensive Study Notes" := by
  refine ⟨by decide, by decide, by decide⟩

set_option maxRecDepth 16384 in
/-- C9, amended.  For an unknown material-type key the prompt composer falls
back to the full "comprehensive" catalog entry — the composed prompt carries
the comprehensive display name and style directive — while the endpoint
metadata shown in the output document falls back to the literal
"Study Notes" instead of the comprehensive display name. -/
theorem c9_amended (k : String) (ppt : DeckExtraction) (ws : List String)
    (dl ai : String) (h : lookupMaterial k = none) :
    materialConfig k = comprehensiveSpec ∧
    strContainsB (generatePrompt ppt ws k dl ai)
      "MATERIAL TYPE: Comprehensive Study Notes" = true ∧
    strContainsB (generatePrompt ppt ws k dl ai)
      "STYLE INSTRUCTION: Create extremely detailed and comprehensive notes" = true ∧
    endpointMaterialName k = "Study Notes" := by
  have hcfg : materialConfig k = comprehensiveSpec := by
    unfold materialConfig
    rw [h]
    rfl
  refine ⟨hcfg, ?_, ?_, ?_⟩
  · unfold generatePrompt promptHead
    rw [hcfg]
    apply strContainsB_append_left
    apply strContainsB_append_left
    apply strContainsB_append_left
    apply strContainsB_append_left
    apply strContainsB_append_left
    apply strContainsB_append_left
    apply strContainsB_append_left
    apply strContainsB_append_left
    apply strContainsB_append_left
    apply strContainsB_append_left
    decide
  · unfold generatePrompt promptHead
    rw [hcfg]
    apply strContainsB_append_left
    apply strContainsB_append_left
    apply strContainsB_append_left
    apply strContainsB_append_left
    apply strContainsB_append_left
    apply strContainsB_append_left
    apply strContainsB_append_left
    apply strContainsB_append_left
    decide
  · unfold endpointMaterialName
    rw [h]

set_option maxRecDepth 16384 in
/-- C9, witness for the amended theorem at a concrete unknown key. -/
theorem c9_amended_witness :
    materialConfig "mystery_type" = comprehensiveSpec ∧
    strContainsB (generatePrompt ⟨1, [], ""⟩ [] "mystery_type" "beginner" "")
      "MATERIAL TYPE: Comprehensive Study Notes" = true ∧
    strContainsB (generatePrompt ⟨1, [], ""⟩ [] "mystery_type" "beginner" "")
      "STYLE INSTRUCTION: Create extremely detailed and comprehensive notes" = true ∧
    endpointMaterialName "mystery_type" = "Study Notes" :=
  c9_amended "mystery_type" ⟨1, [], ""⟩ [] "beginner" "" (by decide)

/-- C10.  If building the paragraph for a normal-text line fails, that line
alone is re-rendered with every star and hash removed and the result
XML-escaped; the loop then continues with the remaining lines unchanged (the
`in_list` state is untouched), so a single malformed normal-text line never
aborts the structured pass; the recovered paragraph carries no markup
characters. -/
theorem c10_per_line_recovery (pfails : List Char → Bool) (l : List Char)
    (rest : List (List Char)) (inList : Bool)
    (hcls : classify (pyStripList l) = LineClass.paragraph)
    (hpf : pfails (convertMd (pyStripList l)) = true) :
    processLines pfails (l :: rest) inList =
      FBlock.paraB (escapeXml (((pyStripList l).filter (fun c => !(c == '*'))).filter
        (fun c => !(c == '#')))) :: processLines pfails rest inList ∧
    (escapeXml (((pyStripList l).filter (fun c => !(c == '*'))).filter
      (fun c => !(c == '#')))).all notMd = true := by
  have hne : (pyStripList l).isEmpty = false := by
    cases he : (pyStripList l).isEmpty
    · rfl
    · rw [List.isEmpty_iff] at he
      rw [he] at hcls
      exact absurd hcls (by decide)
  have hinl : newInList (pyStripList l) inList = inList := by
    unfold newInList
    rw [hcls]
  have hblock : lineBlock pfails (pyStripList l) =
      FBlock.paraB (escapeXml (((pyStripList l).filter (fun c => !(c == '*'))).filter
        (fun c => !(c == '#')))) := by
    unfold lineBlock
    rw [hcls, hpf]
    simp
  constructor
  · show (if (pyStripList l).isEmpty then _ else _) = _
    rw [hne]
    simp only [Bool.false_eq_true, if_false]
    rw [hblock, hinl]
  · refine escapeXml_all_notMd ?_
    rw [List.all_eq_true]
    intro c hc
    have h1 := List.mem_filter.mp hc
    have h2 := List.mem_filter.mp h1.1
    unfold notMd
    simp only [Bool.not_eq_true', Bool.or_eq_false_iff]
    constructor
    · simpa using h2.2
    · simpa using h1.2

/-- C10, witness at a concrete failing line. -/
theorem c10_per_line_recovery_witness :
    processLines (fun _ => true) ("Plain text line".data :: ["Next line".data]) false =
      FBlock.paraB (escapeXml (((pyStripList "Plain text line".data).filter
        (fun c => !(c == '*'))).filter (fun c => !(c == '#')))) ::
        processLines (fun _ => true) ["Next line".data] false ∧
    (escapeXml (((pyStripList "Plain text line".data).filter
      (fun c => !(c == '*'))).filter (fun c => !(c == '#')))).all notMd = true :=
  c10_per_line_recovery (fun _ => true) "Plain text line".data ["Next line".data] false
    (by decide) (by decide)

end NotesGen
